import Mathlib

/-!
Shallow embedding of `src/notebook/aqa.py` (assembly quality assessment).

Contig sequences are `List Char`, contig lengths are `ℕ`, and GC percentages
are exact rationals `ℚ` (the claims under study do not depend on binary
floating-point representation).  Python code paths that raise an exception
(`ZeroDivisionError` in `calculate_gc_content`, the `TypeError` when `main`
unpacks the `None` returned by `calculate_L50` on an empty record list) are
modelled by `Option`/`Except` failure values.
-/

namespace Aqa

/-- Models Python `round(x, 2)`: round to two decimal places.  The claims do
not depend on the tie-breaking policy, so Mathlib's `round` is used. -/
def pyRound2 (x : ℚ) : ℚ := (round (x * 100) : ℤ) / 100

/-- The accumulation loop of `calculate_N50` (aqa.py lines 17-21): walk the
ascending-sorted lengths, keeping the integer running sum `cumulative_length`,
and return the first length at which it reaches `half_length` (a rational,
since Python computes `total_length / 2` with true division). -/
def n50_go (half_length : ℚ) : List ℕ → ℕ → Option ℕ
  | [], _ => none
  | length :: rest, cumulative_length =>
    if half_length ≤ ((cumulative_length + length : ℕ) : ℚ) then some length
    else n50_go half_length rest (cumulative_length + length)

/-- `calculate_N50` (aqa.py lines 12-21).  Python falls off the loop and
returns `None` on an empty input list; hence the `Option`. -/
def calculate_N50 (sequence_lengths : List ℕ) : Option ℕ :=
  let total_length := sequence_lengths.sum
  let half_length : ℚ := (total_length : ℚ) / 2
  n50_go half_length (sequence_lengths.insertionSort (· ≤ ·)) 0

/-- The accumulation loop of `calculate_L50` (aqa.py lines 28-32): walk the
descending-sorted lengths with `enumerate`; on the first crossing of
`half_length` return the pair `(length, idx + 1)`. -/
def l50_go (half_length : ℚ) : List ℕ → ℕ → ℕ → Option (ℕ × ℕ)
  | [], _, _ => none
  | length :: rest, cumulative_length, idx =>
    if half_length ≤ ((cumulative_length + length : ℕ) : ℚ) then some (length, idx + 1)
    else l50_go half_length rest (cumulative_length + length) (idx + 1)

/-- `calculate_L50` (aqa.py lines 23-32): sort descending
(`sorted(..., reverse=True)`), return the L50 length and the 1-based count of
contigs consumed.  Returns `None` (here `none`) on an empty input list. -/
def calculate_L50 (sequence_lengths : List ℕ) : Option (ℕ × ℕ) :=
  let total_length := sequence_lengths.sum
  let half_length : ℚ := (total_length : ℚ) / 2
  l50_go half_length (sequence_lengths.insertionSort (· ≥ ·)) 0 0

/-- `calculate_genome_size` (aqa.py lines 35-36). -/
def calculate_genome_size (sequence_lengths : List ℕ) : ℕ :=
  sequence_lengths.sum

/-- `calculate_gc_content` (aqa.py lines 39-43): count of `'G'` plus count of
`'C'` over the sequence length, times 100, rounded to 2 decimals.  A
zero-length sequence raises `ZeroDivisionError` in Python, modelled as
`none`. -/
def calculate_gc_content (sequence : List Char) : Option ℚ :=
  let gc_count := sequence.count 'G' + sequence.count 'C'
  let total_count := sequence.length
  if total_count = 0 then none
  else some (pyRound2 ((gc_count : ℚ) / (total_count : ℚ) * 100))

/-- The per-record GC accumulation of `process_fasta_file` (aqa.py line 68):
`gc_content_list.append(round(calculate_gc_content(record.seq), 2))`.  The
outer `round(_, 2)` is applied on top of the one inside
`calculate_gc_content`; a zero-length record aborts the whole loop. -/
def gc_list : List (List Char) → Option (List ℚ)
  | [] => some []
  | record :: rest =>
    match calculate_gc_content record, gc_list rest with
    | some g, some gs => some (pyRound2 g :: gs)
    | _, _ => none

/-- The tuple returned by `process_fasta_file` (aqa.py line 79). -/
structure FastaMetrics where
  n50 : ℕ
  l50 : ℕ
  num_contigs : ℕ
  contigs_shorter_than_limit : ℕ
  genome_size : ℕ
  gc_content_rounded : ℚ
deriving DecidableEq

/-- `process_fasta_file` (aqa.py lines 55-79).  `n50_list`,
`num_contigs_list` and `genome_size_list` are the per-record lengths, ones,
and lengths again; a zero-length record raises inside the loop
(`calculate_gc_content`), and an empty record list raises at the unpacking
of `calculate_L50`'s `None` (line 74) — both modelled as `none`.  The final
division by `len(gc_content_list)` is only reached with a non-empty list
(otherwise `calculate_N50`/`calculate_L50` already yielded `none`). -/
def process_fasta_file (records : List (List Char)) (cont_size_limit : ℕ) :
    Option FastaMetrics :=
  match gc_list records with
  | none => none
  | some gc_content_list =>
    let n50_list := records.map List.length
    match calculate_N50 n50_list, calculate_L50 n50_list with
    | some n50, some l50_pair =>
      some { n50 := n50
             l50 := l50_pair.1
             num_contigs := (records.map fun _ => 1).sum
             contigs_shorter_than_limit :=
               records.countP (fun r => decide (r.length < cont_size_limit))
             genome_size := calculate_genome_size n50_list
             gc_content_rounded :=
               pyRound2 (gc_content_list.sum / (gc_content_list.length : ℚ)) }
    | _, _ => none

/-- `assess_eligibility` (aqa.py lines 46-52): empty string when any of the
five thresholds is `None`; otherwise `Eligible` exactly when all three
range checks pass. -/
def assess_eligibility (num_contigs genome_size : ℕ) (gc_content : ℚ)
    (contig_cutoff genome_size_min genome_size_max : Option ℕ)
    (gc_content_min gc_content_max : Option ℚ) : String :=
  match contig_cutoff, genome_size_min, genome_size_max,
        gc_content_min, gc_content_max with
  | some cc, some smin, some smax, some gmin, some gmax =>
    if num_contigs ≤ cc ∧ (smin ≤ genome_size ∧ genome_size ≤ smax) ∧
        (gmin ≤ gc_content ∧ gc_content ≤ gmax)
    then "Eligible" else "Not Eligible"
  | _, _, _, _, _ => ""

/-- The `contigs_quality` expression of `main` (aqa.py line 193). -/
def contigs_quality (con_cut : Option ℕ) (num_contigs : ℕ) : String :=
  match con_cut with
  | none => ""
  | some c => if num_contigs ≤ c then "Yes" else "No"

/-- The `genome_size_quality` expression of `main` (aqa.py line 194). -/
def genome_size_quality (size_min size_max : Option ℕ) (genome_size : ℕ) :
    String :=
  match size_min, size_max with
  | some lo, some hi =>
    if lo ≤ genome_size ∧ genome_size ≤ hi then "Yes" else "No"
  | _, _ => ""

/-- The `gc_content_range` expression of `main` (aqa.py line 195): note the
source computes `'Warning' if not (gc_min <= gc <= gc_max) else '-'`. -/
def gc_content_range (gc_min gc_max : Option ℚ) (gc_content : ℚ) : String :=
  match gc_min, gc_max with
  | some lo, some hi =>
    if ¬ (lo ≤ gc_content ∧ gc_content ≤ hi) then "Warning" else "-"
  | _, _ => ""

/-- The configuration values `main` reads off the parsed CLI arguments:
the five optional thresholds plus `contig_lim` (flag `-cl`/`--contig-lim`,
argparse default 500). -/
structure Args where
  con_cut : Option ℕ
  size_min : Option ℕ
  size_max : Option ℕ
  gc_min : Option ℚ
  gc_max : Option ℚ
  contig_lim : ℕ
deriving DecidableEq

/-- One row of the `data` list built by `main` (aqa.py lines 197-209),
minus the file-name field (a pure label). -/
structure ResultRow where
  n50 : ℕ
  l50 : ℕ
  num_contigs : ℕ
  contigs_shorter_than_500 : ℕ
  contigs_quality : String
  genome_size : ℕ
  genome_size_quality : String
  gc_content : ℚ
  gc_content_range : String
  eligibility : String
deriving DecidableEq

/-- The row construction in `main`'s loop body (aqa.py lines 193-209). -/
def main_row (args : Args) (m : FastaMetrics) : ResultRow :=
  { n50 := m.n50
    l50 := m.l50
    num_contigs := m.num_contigs
    contigs_shorter_than_500 := m.contigs_shorter_than_limit
    contigs_quality := contigs_quality args.con_cut m.num_contigs
    genome_size := m.genome_size
    genome_size_quality :=
      genome_size_quality args.size_min args.size_max m.genome_size
    gc_content := m.gc_content_rounded
    gc_content_range := gc_content_range args.gc_min args.gc_max m.gc_content_rounded
    eligibility :=
      assess_eligibility m.num_contigs m.genome_size m.gc_content_rounded
        args.con_cut args.size_min args.size_max args.gc_min args.gc_max }

/-- Per-file work of `main`'s loop (aqa.py lines 192-209).  Line 192 calls
`process_fasta_file(file_path)` with no second argument, so the function's
default `cont_size_limit=500` is used and `args.contig_lim` is never
forwarded. -/
def main_process_file (args : Args) (records : List (List Char)) :
    Option ResultRow :=
  (process_fasta_file records 500).map (main_row args)

/-- The `for file_path in input_files` loop of `main` (aqa.py lines
190-209): `fasta_file_count` is incremented for each file *found* (line 191)
before the file is processed; the source has no `try`/`except`, so a
per-file exception propagates and aborts the whole run (`Except.error`). -/
def main_loop (args : Args) :
    List (List (List Char)) → List ResultRow → ℕ →
    Except String (List ResultRow × ℕ)
  | [], data, fasta_file_count => Except.ok (data, fasta_file_count)
  | records :: rest, data, fasta_file_count =>
    match main_process_file args records with
    | none => Except.error "unhandled per-file exception aborts the run"
    | some row => main_loop args rest (data ++ [row]) (fasta_file_count + 1)

/-- `main` (aqa.py lines 171-217) restricted to the assessment engine: the
input files are given as lists of records (the external FASTA parser is out
of scope), the result is the `data` collection handed to the renderers plus
the final `fasta_file_count`, or the uncaught exception. -/
def main (args : Args) (input_files : List (List (List Char))) :
    Except String (List ResultRow × ℕ) :=
  main_loop args input_files [] 0

/-- Spec-side predicate for claim C2: the `k` longest contigs (the first `k`
of the descending sort) cover at least half the genome size. -/
def reaches_half (L : List ℕ) (k : ℕ) : Prop :=
  L.sum ≤ 2 * ((L.insertionSort (· ≥ ·)).take k).sum

/-- A valid 4-base record: length 4, GC fraction 1/2. -/
def acgt : List Char := ['A', 'C', 'G', 'T']

/-- A 600-base record: longer than the hard-coded 500 but shorter than a
configured limit of 1000. -/
def seq600 : List Char := List.replicate 600 'A'

/-- A run configuration with no thresholds set and the default contig
limit. -/
def argsNone : Args :=
  { con_cut := none, size_min := none, size_max := none,
    gc_min := none, gc_max := none, contig_lim := 500 }

/-- A run configuration whose only non-default setting is
`-cl 1000` (`contig_lim := 1000`). -/
def argsCl1000 : Args :=
  { con_cut := none, size_min := none, size_max := none,
    gc_min := none, gc_max := none, contig_lim := 1000 }

/-- An internally inconsistent configuration: `size_min > size_max`. -/
def cfgBadSize : Args :=
  { con_cut := some 5, size_min := some 5000, size_max := some 1000,
    gc_min := some 40, gc_max := some 60, contig_lim := 500 }

/-- The row `main` produces for the single record `acgt` under
`cfgBadSize`. -/
def rowAcgtBad : ResultRow :=
  { n50 := 4, l50 := 4, num_contigs := 1, contigs_shorter_than_500 := 1,
    contigs_quality := "Yes", genome_size := 4, genome_size_quality := "No",
    gc_content := 50, gc_content_range := "-", eligibility := "Not Eligible" }

/-- The row `main` produces for the single record `seq600` under
`argsCl1000`: the short-contig cell is 0 because the hard-coded limit 500 is
used, not the configured 1000. -/
def rowSeq600 : ResultRow :=
  { n50 := 600, l50 := 600, num_contigs := 1, contigs_shorter_than_500 := 0,
    contigs_quality := "", genome_size := 600, genome_size_quality := "",
    gc_content := 0, gc_content_range := "", eligibility := "" }

end Aqa

namespace Aqa

lemma half_le_iff (total n : ℕ) : (total : ℚ) / 2 ≤ (n : ℚ) ↔ total ≤ 2 * n := by
  rw [div_le_iff₀ (by norm_num : (0:ℚ) < 2)]
  rw [show ((n : ℚ) * 2) = ((2 * n : ℕ) : ℚ) by push_cast; ring]
  exact Nat.cast_le

/-- Loop invariant of `n50_go`: started at cumulative sum `c` on a list whose
total closes the gap to the half-length, the loop returns the element `v` of
the first position whose running sum reaches the half, together with the
strict bound on the prefix before it. -/
lemma n50_go_spec (total : ℕ) :
    ∀ (xs : List ℕ) (c : ℕ), xs ≠ [] → total ≤ 2 * (c + xs.sum) →
    ∃ v p q, n50_go ((total : ℚ) / 2) xs c = some v ∧ xs = p ++ v :: q ∧
      total ≤ 2 * (c + p.sum + v) ∧ (p ≠ [] → 2 * (c + p.sum) < total)
  | [], _, hne, _ => absurd rfl hne
  | x :: rest, c, _, hsum => by
    rw [n50_go]
    by_cases hx : (total : ℚ) / 2 ≤ ((c + x : ℕ) : ℚ)
    · refine ⟨x, [], rest, ?_, rfl, ?_, ?_⟩
      · rw [if_pos hx]
      · have := (half_le_iff total (c + x)).mp hx
        simpa using this
      · intro h; exact absurd rfl h
    · rw [if_neg hx]
      have hlt : 2 * (c + x) < total := by
        have := (half_le_iff total (c + x)).not.mp hx
        omega
      have hrest : rest ≠ [] := by
        intro h
        subst h
        simp [List.sum_cons] at hsum
        omega
      have hsum2 : total ≤ 2 * ((c + x) + rest.sum) := by
        simp [List.sum_cons] at hsum
        omega
      obtain ⟨v, p, q, hgo, hsplit, hget, hmin⟩ :=
        n50_go_spec total rest (c + x) hrest hsum2
      refine ⟨v, x :: p, q, hgo, by rw [hsplit]; rfl, ?_, ?_⟩
      · simp only [List.sum_cons]
        omega
      · intro _
        cases p with
        | nil =>
          simp only [List.sum_cons, List.sum_nil]
          omega
        | cons a as =>
          have h2 := hmin (by simp)
          simp only [List.sum_cons] at h2 ⊢
          omega

/-- Loop invariant of `l50_go`, additionally tracking that the returned
count is the 1-based index of the crossing position. -/
lemma l50_go_spec (total : ℕ) :
    ∀ (xs : List ℕ) (c i : ℕ), xs ≠ [] → total ≤ 2 * (c + xs.sum) →
    ∃ v p q, l50_go ((total : ℚ) / 2) xs c i = some (v, i + p.length + 1) ∧
      xs = p ++ v :: q ∧
      total ≤ 2 * (c + p.sum + v) ∧ (p ≠ [] → 2 * (c + p.sum) < total)
  | [], _, _, hne, _ => absurd rfl hne
  | x :: rest, c, i, _, hsum => by
    rw [l50_go]
    by_cases hx : (total : ℚ) / 2 ≤ ((c + x : ℕ) : ℚ)
    · refine ⟨x, [], rest, ?_, rfl, ?_, ?_⟩
      · rw [if_pos hx]
        simp
      · have := (half_le_iff total (c + x)).mp hx
        simpa using this
      · intro h; exact absurd rfl h
    · rw [if_neg hx]
      have hlt : 2 * (c + x) < total := by
        have := (half_le_iff total (c + x)).not.mp hx
        omega
      have hrest : rest ≠ [] := by
        intro h
        subst h
        simp [List.sum_cons] at hsum
        omega
      have hsum2 : total ≤ 2 * ((c + x) + rest.sum) := by
        simp [List.sum_cons] at hsum
        omega
      obtain ⟨v, p, q, hgo, hsplit, hget, hmin⟩ :=
        l50_go_spec total rest (c + x) (i + 1) hrest hsum2
      refine ⟨v, x :: p, q, ?_, by rw [hsplit]; rfl, ?_, ?_⟩
      · rw [hgo]
        simp only [List.length_cons]
        norm_num
        omega
      · simp only [List.sum_cons]
        omega
      · intro _
        cases p with
        | nil =>
          simp only [List.sum_cons, List.sum_nil]
          omega
        | cons a as =>
          have h2 := hmin (by simp)
          simp only [List.sum_cons] at h2 ⊢
          omega

lemma pyRound2_idem (x : ℚ) : pyRound2 (pyRound2 x) = pyRound2 x := by
  unfold pyRound2
  rw [div_mul_cancel₀ _ (by norm_num : (100:ℚ) ≠ 0)]
  rw [round_intCast]

lemma gc_list_none_of_nil_record :
    ∀ (records : List (List Char)), (∃ r ∈ records, r.length = 0) →
      gc_list records = none
  | [], h => by simp at h
  | r :: rest, h => by
    rcases h with ⟨r0, hmem, hr0⟩
    rcases List.mem_cons.mp hmem with heq | hmem2
    · subst heq
      have : calculate_gc_content r0 = none := by
        simp [calculate_gc_content, hr0]
      rw [gc_list, this]
    · have ih := gc_list_none_of_nil_record rest ⟨r0, hmem2, hr0⟩
      rw [gc_list, ih]
      cases calculate_gc_content r <;> rfl

lemma gc_list_eq_map :
    ∀ (records : List (List Char)), (∀ r ∈ records, r ≠ []) →
      gc_list records = some (records.map fun r =>
        pyRound2 (((r.count 'G' + r.count 'C' : ℕ) : ℚ) / (r.length : ℚ) * 100))
  | [], _ => rfl
  | r :: rest, h => by
    have hr : r ≠ [] := h r (List.mem_cons_self r rest)
    have hlen : r.length ≠ 0 := fun h0 => hr (List.length_eq_zero.mp h0)
    have hgc : calculate_gc_content r =
        some (pyRound2 (((r.count 'G' + r.count 'C' : ℕ) : ℚ) / (r.length : ℚ) * 100)) := by
      rw [calculate_gc_content]
      simp [hlen]
    have ih := gc_list_eq_map rest (fun x hx => h x (List.mem_cons_of_mem r hx))
    rw [gc_list, hgc, ih]
    simp [pyRound2_idem]

lemma gc_acgt : calculate_gc_content acgt = some 50 := by
  have hG : List.count 'G' acgt = 1 := by decide
  have hC : List.count 'C' acgt = 1 := by decide
  have hL : acgt.length = 4 := by decide
  rw [calculate_gc_content]
  rw [hG, hC, hL]
  norm_num [pyRound2, round_eq]

lemma gc_list_acgt : gc_list [acgt] = some [50] := by
  rw [gc_list, gc_list, gc_acgt]
  norm_num [pyRound2, round_eq]

lemma n50_four : calculate_N50 [4] = some 4 := by
  norm_num [calculate_N50, n50_go, List.insertionSort, List.orderedInsert]

lemma l50_four : calculate_L50 [4] = some (4, 1) := by
  norm_num [calculate_L50, l50_go, List.insertionSort, List.orderedInsert]

lemma process_acgt : process_fasta_file [acgt] 500 =
    some { n50 := 4, l50 := 4, num_contigs := 1, contigs_shorter_than_limit := 1,
           genome_size := 4, gc_content_rounded := 50 } := by
  have hmap : ([acgt].map List.length) = [4] := by decide
  simp only [process_fasta_file, gc_list_acgt, hmap, n50_four, l50_four]
  norm_num [calculate_genome_size, pyRound2, round_eq,
    List.countP_cons, List.countP_nil, acgt]

lemma row_acgt_bad : main_process_file cfgBadSize [acgt] = some rowAcgtBad := by
  simp only [main_process_file, process_acgt, Option.map_some', main_row]
  norm_num [cfgBadSize, rowAcgtBad, contigs_quality, genome_size_quality,
    gc_content_range, assess_eligibility]

lemma empty_fails : ∀ args : Args, main_process_file args [] = none := by
  intro args
  simp only [main_process_file, process_fasta_file]
  rfl

lemma gc_g1 : calculate_gc_content ['G'] = some 100 := by
  have hG : List.count 'G' (['G'] : List Char) = 1 := by decide
  have hC : List.count 'C' (['G'] : List Char) = 0 := by decide
  have hL : (['G'] : List Char).length = 1 := by decide
  rw [calculate_gc_content]
  rw [hG, hC, hL]
  norm_num [pyRound2, round_eq]

lemma gc_at2 : calculate_gc_content ['A', 'T'] = some 0 := by
  have hG : List.count 'G' (['A', 'T'] : List Char) = 0 := by decide
  have hC : List.count 'C' (['A', 'T'] : List Char) = 0 := by decide
  have hL : (['A', 'T'] : List Char).length = 2 := by decide
  rw [calculate_gc_content]
  rw [hG, hC, hL]
  norm_num [pyRound2, round_eq]

lemma gc_list_g1at2 : gc_list [['G'], ['A', 'T']] = some [100, 0] := by
  rw [gc_list, gc_list, gc_list, gc_g1, gc_at2]
  norm_num [pyRound2, round_eq]

lemma n50_one_two : calculate_N50 [1, 2] = some 2 := by
  norm_num [calculate_N50, n50_go, List.insertionSort, List.orderedInsert]

lemma l50_one_two : calculate_L50 [1, 2] = some (2, 1) := by
  norm_num [calculate_L50, l50_go, List.insertionSort, List.orderedInsert]

lemma gc_seq600 : calculate_gc_content seq600 = some 0 := by
  have hG : List.count 'G' seq600 = 0 := by
    rw [seq600, List.count_replicate, if_neg (by decide)]
  have hC : List.count 'C' seq600 = 0 := by
    rw [seq600, List.count_replicate, if_neg (by decide)]
  have hL : seq600.length = 600 := by
    rw [seq600]
    exact List.length_replicate 600 'A'
  rw [calculate_gc_content]
  rw [hG, hC, hL]
  norm_num [pyRound2, round_eq]

lemma gc_list_seq600 : gc_list [seq600] = some [0] := by
  rw [gc_list, gc_list, gc_seq600]
  norm_num [pyRound2, round_eq]

lemma n50_600 : calculate_N50 [600] = some 600 := by
  norm_num [calculate_N50, n50_go, List.insertionSort, List.orderedInsert]

lemma l50_600 : calculate_L50 [600] = some (600, 1) := by
  norm_num [calculate_L50, l50_go, List.insertionSort, List.orderedInsert]

lemma len_seq600 : seq600.length = 600 := by
  rw [seq600]
  exact List.length_replicate 600 'A'

lemma process_seq600_500 : process_fasta_file [seq600] 500 =
    some { n50 := 600, l50 := 600, num_contigs := 1,
           contigs_shorter_than_limit := 0, genome_size := 600,
           gc_content_rounded := 0 } := by
  have hmap : ([seq600].map List.length) = [600] := by
    simp only [List.map_cons, List.map_nil, len_seq600]
  simp only [process_fasta_file, gc_list_seq600, hmap, n50_600, l50_600]
  norm_num [calculate_genome_size, pyRound2, round_eq,
    List.countP_cons, List.countP_nil, len_seq600]

lemma process_seq600_1000 : process_fasta_file [seq600] 1000 =
    some { n50 := 600, l50 := 600, num_contigs := 1,
           contigs_shorter_than_limit := 1, genome_size := 600,
           gc_content_rounded := 0 } := by
  have hmap : ([seq600].map List.length) = [600] := by
    simp only [List.map_cons, List.map_nil, len_seq600]
  simp only [process_fasta_file, gc_list_seq600, hmap, n50_600, l50_600]
  norm_num [calculate_genome_size, pyRound2, round_eq,
    List.countP_cons, List.countP_nil, len_seq600]

lemma row_seq600 : main_process_file argsCl1000 [seq600] = some rowSeq600 := by
  simp only [main_process_file, process_seq600_500, Option.map_some', main_row]
  norm_num [argsCl1000, rowSeq600, contigs_quality, genome_size_quality,
    gc_content_range, assess_eligibility]

lemma main_loop_error (args : Args) :
    ∀ (files : List (List (List Char))) (data : List ResultRow) (cnt : ℕ),
      (∃ f ∈ files, main_process_file args f = none) →
      main_loop args files data cnt =
        Except.error "unhandled per-file exception aborts the run"
  | [], _, _, h => by simp at h
  | f :: rest, data, cnt, h => by
    rw [main_loop]
    cases hf : main_process_file args f with
    | none => rfl
    | some row =>
      rcases h with ⟨g, hmem, hg⟩
      rcases List.mem_cons.mp hmem with heq | hmem2
      · subst heq
        rw [hf] at hg
        exact absurd hg (by simp)
      · exact main_loop_error args rest (data ++ [row]) (cnt + 1) ⟨g, hmem2, hg⟩

lemma main_loop_ok (args : Args) :
    ∀ (files : List (List (List Char))) (data : List ResultRow) (cnt : ℕ),
      (∀ f ∈ files, (main_process_file args f).isSome) →
      ∃ rows, main_loop args files data cnt =
          Except.ok (data ++ rows, cnt + files.length) ∧
        rows.length = files.length
  | [], data, cnt, _ => ⟨[], by rw [main_loop]; simp, rfl⟩
  | f :: rest, data, cnt, h => by
    have hf := h f (List.mem_cons_self f rest)
    obtain ⟨row, hrow⟩ := Option.isSome_iff_exists.mp hf
    obtain ⟨rows, hok, hlen⟩ :=
      main_loop_ok args rest (data ++ [row]) (cnt + 1)
        (fun g hg => h g (List.mem_cons_of_mem f hg))
    have hstep : main_loop args (f :: rest) data cnt =
        main_loop args rest (data ++ [row]) (cnt + 1) := by
      rw [main_loop, hrow]
    refine ⟨row :: rows, ?_, by simp [hlen]⟩
    rw [hstep, hok]
    have h1 : data ++ [row] ++ rows = data ++ row :: rows := by simp
    have h2 : cnt + 1 + rest.length = cnt + (f :: rest).length := by
      simp only [List.length_cons]
      omega
    rw [h1, h2]

/-- C1: for every non-empty list of contig lengths, `calculate_N50` returns
the length at the first position, in ascending sorted order, where the
running cumulative sum reaches or exceeds half the total (so the prefix
strictly before that position sums to strictly less than half), and the
result is an element of the input; on `[100, 200, 300, 400]` it returns
`300`. -/
theorem calculate_N50_spec :
    (∀ (L : List ℕ), L ≠ [] →
      ∃ v p q, calculate_N50 L = some v ∧ v ∈ L ∧
        L.insertionSort (· ≤ ·) = p ++ v :: q ∧
        L.sum ≤ 2 * (p.sum + v) ∧ (p ≠ [] → 2 * p.sum < L.sum)) ∧
    calculate_N50 [100, 200, 300, 400] = some 300 := by
  constructor
  · intro L hL
    have hperm : (L.insertionSort (· ≤ ·)).Perm L := List.perm_insertionSort _ L
    have hsne : L.insertionSort (· ≤ ·) ≠ [] := by
      intro h
      apply hL
      have hl := hperm.length_eq
      rw [h] at hl
      exact List.length_eq_zero.mp hl.symm
    have hsum : (L.insertionSort (· ≤ ·)).sum = L.sum := hperm.sum_eq
    obtain ⟨v, p, q, hgo, hsplit, hge, hmin⟩ :=
      n50_go_spec L.sum (L.insertionSort (· ≤ ·)) 0 hsne (by omega)
    refine ⟨v, p, q, ?_, ?_, hsplit, by omega, fun h => by have := hmin h; omega⟩
    · simp only [calculate_N50]
      exact hgo
    · exact hperm.mem_iff.mp (by simp [hsplit])
  · norm_num [calculate_N50, n50_go, List.insertionSort, List.orderedInsert]

/-- C1 witness: the characterization instantiated at `[100, 200, 300, 400]`. -/
theorem calculate_N50_spec_witness :
    ∃ v p q, calculate_N50 [100, 200, 300, 400] = some v ∧
      v ∈ ([100, 200, 300, 400] : List ℕ) ∧
      ([100, 200, 300, 400] : List ℕ).insertionSort (· ≤ ·) = p ++ v :: q ∧
      ([100, 200, 300, 400] : List ℕ).sum ≤ 2 * (p.sum + v) ∧
      (p ≠ [] → 2 * p.sum < ([100, 200, 300, 400] : List ℕ).sum) :=
  calculate_N50_spec.1 [100, 200, 300, 400] (by decide)

/-- C2 counterexample: on `L = [0]` the code returns count `1`, yet `k = 0`
already satisfies the claimed minimality property (the 0 longest contigs sum
to `0 ≥ sum(L)/2 = 0`), so the returned count is not the minimum `k` over
all naturals — the minimum is only taken over `k ≥ 1`. -/
theorem calculate_L50_min_counterexample :
    calculate_L50 [0] = some (0, 1) ∧ reaches_half [0] 0 ∧ 0 < 1 := by
  refine ⟨?_, by unfold reaches_half; decide, by decide⟩
  norm_num [calculate_L50, l50_go, List.insertionSort, List.orderedInsert]

/-- C2 amended: for every non-empty list of contig lengths, `calculate_L50`
returns `(len, k)` where `k` is the minimum `k ≥ 1` such that the `k` longest
contigs total at least half the genome size, and `len` is the `k`-th longest
contig. -/
theorem calculate_L50_spec :
    ∀ (L : List ℕ), L ≠ [] →
      ∃ len k, calculate_L50 L = some (len, k) ∧ 1 ≤ k ∧ k ≤ L.length ∧
        (L.insertionSort (· ≥ ·))[k - 1]? = some len ∧
        reaches_half L k ∧ (∀ j, 1 ≤ j → j < k → ¬ reaches_half L j) := by
  intro L hL
  have hperm : (L.insertionSort (· ≥ ·)).Perm L := List.perm_insertionSort _ L
  have hsne : L.insertionSort (· ≥ ·) ≠ [] := by
    intro h
    apply hL
    have hl := hperm.length_eq
    rw [h] at hl
    exact List.length_eq_zero.mp hl.symm
  have hsum : (L.insertionSort (· ≥ ·)).sum = L.sum := hperm.sum_eq
  have hlen : (L.insertionSort (· ≥ ·)).length = L.length := hperm.length_eq
  obtain ⟨v, p, q, hgo, hsplit, hge, hmin⟩ :=
    l50_go_spec L.sum (L.insertionSort (· ≥ ·)) 0 0 hsne (by omega)
  refine ⟨v, p.length + 1, ?_, by omega, ?_, ?_, ?_, ?_⟩
  · simp only [calculate_L50]
    rw [hgo]
    norm_num
  · have : (p ++ v :: q).length = p.length + 1 + q.length := by simp; omega
    rw [hsplit] at hlen
    omega
  · rw [hsplit]
    simp only [Nat.add_sub_cancel]
    rw [List.getElem?_append_right (le_refl p.length)]
    simp
  · unfold reaches_half
    have htake : (p ++ v :: q).take (p.length + 1) = p ++ [v] := by
      rw [List.take_append_eq_append_take]
      simp
    rw [hsplit, htake]
    simp only [List.sum_append, List.sum_cons, List.sum_nil]
    omega
  · intro j hj1 hjk
    unfold reaches_half
    rw [hsplit, List.take_append_eq_append_take]
    have hjp : j - p.length = 0 := by omega
    rw [hjp]
    simp only [List.take_zero, List.append_nil]
    have hple : (p.take j).sum ≤ p.sum := by
      conv_rhs => rw [← List.take_append_drop j p]
      rw [List.sum_append]
      omega
    have hpne : p ≠ [] := by
      intro h
      subst h
      simp at hjk
      omega
    have := hmin hpne
    omega

/-- C2 witness: the amended characterization instantiated at
`[100, 200, 300, 400]`. -/
theorem calculate_L50_spec_witness :
    ∃ len k, calculate_L50 [100, 200, 300, 400] = some (len, k) ∧ 1 ≤ k ∧
      k ≤ ([100, 200, 300, 400] : List ℕ).length ∧
      (([100, 200, 300, 400] : List ℕ).insertionSort (· ≥ ·))[k - 1]? = some len ∧
      reaches_half [100, 200, 300, 400] k ∧
      (∀ j, 1 ≤ j → j < k → ¬ reaches_half [100, 200, 300, 400] j) :=
  calculate_L50_spec [100, 200, 300, 400] (by decide)

/-- C3: `assess_eligibility` returns the empty string whenever any of the
five thresholds is absent; when all five are present it returns `Eligible`
exactly when the contig-count, genome-size and GC checks all pass, and
`Not Eligible` otherwise. -/
theorem assess_eligibility_spec (nc gs : ℕ) (gc : ℚ)
    (cc smin smax : Option ℕ) (gmin gmax : Option ℚ) :
    ((cc = none ∨ smin = none ∨ smax = none ∨ gmin = none ∨ gmax = none) →
      assess_eligibility nc gs gc cc smin smax gmin gmax = "") ∧
    (∀ c s1 s2 g1 g2, cc = some c → smin = some s1 → smax = some s2 →
      gmin = some g1 → gmax = some g2 →
      assess_eligibility nc gs gc cc smin smax gmin gmax =
        if nc ≤ c ∧ (s1 ≤ gs ∧ gs ≤ s2) ∧ (g1 ≤ gc ∧ gc ≤ g2)
        then "Eligible" else "Not Eligible") := by
  constructor
  · intro h
    rcases h with h | h | h | h | h <;> subst h
    · rfl
    · cases cc <;> rfl
    · cases cc <;> cases smin <;> rfl
    · cases cc <;> cases smin <;> cases smax <;> rfl
    · cases cc <;> cases smin <;> cases smax <;> cases gmin <;> rfl
  · intro c s1 s2 g1 g2 h1 h2 h3 h4 h5
    subst h1; subst h2; subst h3; subst h4; subst h5
    rfl

/-- C3 witness: the spec's worked example (3 contigs, size 3000, GC 50
against thresholds 5 / [1000, 5000] / [40, 60]) is `Eligible`, and dropping
the contig cutoff gives the empty string. -/
theorem assess_eligibility_spec_witness :
    assess_eligibility 3 3000 50 (some 5) (some 1000) (some 5000) (some 40) (some 60) =
      "Eligible" ∧
    assess_eligibility 3 3000 50 none (some 1000) (some 5000) (some 40) (some 60) = "" := by
  constructor
  · rw [(assess_eligibility_spec 3 3000 50 (some 5) (some 1000) (some 5000) (some 40)
      (some 60)).2 5 1000 5000 40 60 rfl rfl rfl rfl rfl]
    norm_num
  · exact (assess_eligibility_spec 3 3000 50 none (some 1000) (some 5000) (some 40)
      (some 60)).1 (Or.inl rfl)

/-- C4 counterexample: a run over one malformed (empty) file followed by two
valid files aborts with an uncaught error instead of producing the claimed
two-row collection with processed-file count 2. -/
theorem main_no_skip_counterexample :
    main argsNone [[], [acgt], [acgt]] =
      Except.error "unhandled per-file exception aborts the run" := by
  simp only [main, main_loop, empty_fails]

/-- C4 amended: `main` has no per-file error handling — if any file fails,
the whole run aborts with an error (no results, no final count); and when
every file succeeds, the processed-file count equals the number of files
found (the counter counts files encountered, which then coincides with the
files successfully assessed). -/
theorem main_abort_spec :
    (∀ (args : Args) (files : List (List (List Char))),
      (∃ f ∈ files, main_process_file args f = none) →
      main args files = Except.error "unhandled per-file exception aborts the run") ∧
    (∀ (args : Args) (files : List (List (List Char))),
      (∀ f ∈ files, (main_process_file args f).isSome) →
      ∃ rows, main args files = Except.ok (rows, files.length) ∧
        rows.length = files.length) := by
  constructor
  · intro args files h
    exact main_loop_error args files [] 0 h
  · intro args files h
    obtain ⟨rows, hok, hlen⟩ := main_loop_ok args files [] 0 h
    exact ⟨rows, by simpa using hok, hlen⟩

/-- C4 witness: a run containing an empty file aborts. -/
theorem main_abort_spec_witness :
    main argsNone [[], [acgt]] =
      Except.error "unhandled per-file exception aborts the run" :=
  main_abort_spec.1 argsNone [[], [acgt]]
    ⟨[], List.mem_cons_self _ _, empty_fails argsNone⟩

/-- C5: with `-cl 1000` configured, a single 600-base contig is below the
configured limit (the spec-side count and `process_fasta_file` honouring its
parameter both give 1), yet the pipeline reports 0 short contigs, because
`main` (aqa.py line 192) never forwards `args.contig_lim` to
`process_fasta_file` and the hard-coded default 500 is used instead —
contradicting the CLI's own help text for `-cl`/`--contig-lim`. -/
theorem contig_limit_ignored :
    ([seq600].countP (fun r => decide (r.length < 1000)) = 1) ∧
    (∃ m, process_fasta_file [seq600] 1000 = some m ∧
      m.contigs_shorter_than_limit = 1) ∧
    main argsCl1000 [[seq600]] = Except.ok ([rowSeq600], 1) ∧
    rowSeq600.contigs_shorter_than_500 = 0 := by
  refine ⟨?_, ⟨_, process_seq600_1000, rfl⟩, ?_, rfl⟩
  · simp [List.countP_cons, List.countP_nil, len_seq600]
  · simp only [main, main_loop, row_seq600, List.nil_append]

/-- C6: the per-contig GC% is `(count 'G' + count 'C') / length * 100`
rounded to 2 decimals; the per-file aggregate is the unweighted arithmetic
mean of the per-contig rounded values, rounded to 2 decimals; and on the
file `[['G'], ['A','T']]` the aggregate is 50 (the unweighted mean), not the
length-weighted mean `round2(100/3) = 33.33`. -/
theorem gc_content_spec :
    (∀ (s : List Char), s ≠ [] →
      calculate_gc_content s =
        some (pyRound2 (((s.count 'G' + s.count 'C' : ℕ) : ℚ) / (s.length : ℚ) * 100))) ∧
    (∀ (records : List (List Char)) (limit : ℕ) (m : FastaMetrics),
      (∀ r ∈ records, r ≠ []) → process_fasta_file records limit = some m →
      m.gc_content_rounded =
        pyRound2 ((records.map fun r =>
          pyRound2 (((r.count 'G' + r.count 'C' : ℕ) : ℚ) / (r.length : ℚ) * 100)).sum /
          (records.length : ℚ))) ∧
    (∃ m, process_fasta_file [['G'], ['A', 'T']] 500 = some m ∧
      m.gc_content_rounded = 50 ∧ pyRound2 ((1 * 100 + 2 * 0 : ℚ) / 3) ≠ 50) := by
  refine ⟨?_, ?_, ?_⟩
  · intro s hs
    have hlen : s.length ≠ 0 := fun h => hs (List.length_eq_zero.mp h)
    rw [calculate_gc_content]
    simp [hlen]
  · intro records limit m hne hproc
    rw [process_fasta_file, gc_list_eq_map records hne] at hproc
    simp only at hproc
    cases hN : calculate_N50 (records.map List.length) with
    | none =>
      rw [hN] at hproc
      simp at hproc
    | some n50 =>
      cases hL : calculate_L50 (records.map List.length) with
      | none =>
        rw [hN, hL] at hproc
        simp at hproc
      | some l50p =>
        rw [hN, hL] at hproc
        simp only [Option.some.injEq] at hproc
        rw [← hproc]
        simp [List.length_map]
  · refine ⟨{ n50 := 2, l50 := 2, num_contigs := 2, contigs_shorter_than_limit := 2,
              genome_size := 3, gc_content_rounded := 50 }, ?_, ?_, ?_⟩
    · have hmap : ([['G'], ['A', 'T']].map List.length) = [1, 2] := by decide
      simp only [process_fasta_file, gc_list_g1at2, hmap, n50_one_two, l50_one_two]
      norm_num [calculate_genome_size, pyRound2, round_eq,
        List.countP_cons, List.countP_nil]
    · norm_num [pyRound2, round_eq]
    · norm_num [pyRound2, round_eq]

/-- C6 witness: the per-contig formula instantiated at the record `acgt`. -/
theorem gc_content_spec_witness :
    calculate_gc_content acgt =
      some (pyRound2 (((acgt.count 'G' + acgt.count 'C' : ℕ) : ℚ) /
        (acgt.length : ℚ) * 100)) :=
  gc_content_spec.1 acgt (by decide)

/-- C7: each per-metric flag is blank when its threshold is absent and a
definite verdict otherwise — `contigs_quality` is `Yes`/`No` by
`num_contigs ≤ cutoff`, `genome_size_quality` is `Yes`/`No` by the size
range, `gc_content_range` is `-`/`Warning` by the GC range. -/
theorem quality_flags_spec :
    (∀ n : ℕ, contigs_quality none n = "") ∧
    (∀ (c n : ℕ), contigs_quality (some c) n = if n ≤ c then "Yes" else "No") ∧
    (∀ (mx : Option ℕ) (g : ℕ),
      genome_size_quality none mx g = "" ∧ genome_size_quality mx none g = "") ∧
    (∀ (lo hi g : ℕ), genome_size_quality (some lo) (some hi) g =
      if lo ≤ g ∧ g ≤ hi then "Yes" else "No") ∧
    (∀ (mx : Option ℚ) (g : ℚ),
      gc_content_range none mx g = "" ∧ gc_content_range mx none g = "") ∧
    (∀ (lo hi g : ℚ), gc_content_range (some lo) (some hi) g =
      if lo ≤ g ∧ g ≤ hi then "-" else "Warning") := by
  refine ⟨fun n => rfl, fun c n => rfl, ?_, fun lo hi g => rfl, ?_, ?_⟩
  · intro mx g
    exact ⟨rfl, by cases mx <;> rfl⟩
  · intro mx g
    exact ⟨rfl, by cases mx <;> rfl⟩
  · intro lo hi g
    rw [gc_content_range]
    by_cases h : lo ≤ g ∧ g ≤ hi
    · rw [if_neg (not_not_intro h), if_pos h]
    · rw [if_pos h, if_neg h]

/-- C8: an empty record set makes the metrics computation fail (no silent
zero statistics), and a zero-length record is rejected: `calculate_gc_content`
fails on it, and any file containing one fails as a whole. -/
theorem empty_input_rejected :
    (∀ limit : ℕ, process_fasta_file [] limit = none) ∧
    (∀ s : List Char, s.length = 0 → calculate_gc_content s = none) ∧
    (∀ (records : List (List Char)) (limit : ℕ), (∃ r ∈ records, r.length = 0) →
      process_fasta_file records limit = none) := by
  refine ⟨fun limit => rfl, ?_, ?_⟩
  · intro s hs
    rw [calculate_gc_content, if_pos hs]
  · intro records limit h
    rw [process_fasta_file, gc_list_none_of_nil_record records h]

/-- C8 witness: instantiated at the empty file, the empty record, and a file
holding an empty record next to a valid one. -/
theorem empty_input_rejected_witness :
    process_fasta_file [] 500 = none ∧
    calculate_gc_content [] = none ∧
    process_fasta_file [[], acgt] 500 = none :=
  ⟨empty_input_rejected.1 500, empty_input_rejected.2.1 [] rfl,
    empty_input_rejected.2.2 [[], acgt] 500 ⟨[], by simp, rfl⟩⟩

/-- C9 counterexample: under the inconsistent configuration
`size_min = 5000 > size_max = 1000` the run is not rejected — the file is
processed normally and a full result row is produced. -/
theorem config_not_validated_counterexample :
    main cfgBadSize [[acgt]] = Except.ok ([rowAcgtBad], 1) := by
  simp only [main, main_loop, row_acgt_bad, List.nil_append]

/-- C9 amended: the code performs no validation of threshold consistency.
An inconsistent configuration (`min > max`) is accepted silently: the
genome-size flag is then always `No`, the GC flag always `Warning`,
eligibility always `Not Eligible` (when all five thresholds are present),
and every file is still processed. -/
theorem config_not_validated_spec :
    (∀ (lo hi gs : ℕ), hi < lo →
      genome_size_quality (some lo) (some hi) gs = "No") ∧
    (∀ (lo hi gc : ℚ), hi < lo →
      gc_content_range (some lo) (some hi) gc = "Warning") ∧
    (∀ (nc gs : ℕ) (gc : ℚ) (cc lo hi : ℕ) (g1 g2 : ℚ), hi < lo →
      assess_eligibility nc gs gc (some cc) (some lo) (some hi) (some g1) (some g2) =
        "Not Eligible") ∧
    (∀ (args : Args) (files : List (List (List Char))),
      (∀ f ∈ files, (main_process_file args f).isSome) →
      ∃ rows, main args files = Except.ok (rows, files.length) ∧
        rows.length = files.length) := by
  refine ⟨?_, ?_, ?_, ?_⟩
  · intro lo hi gs h
    rw [genome_size_quality, if_neg (by omega)]
  · intro lo hi gc h
    rw [gc_content_range, if_pos ?_]
    rintro ⟨h1, h2⟩
    linarith
  · intro nc gs gc cc lo hi g1 g2 h
    rw [assess_eligibility, if_neg ?_]
    rintro ⟨_, ⟨h1, h2⟩, _⟩
    omega
  · intro args files h
    obtain ⟨rows, hok, hlen⟩ := main_loop_ok args files [] 0 h
    exact ⟨rows, by simpa using hok, hlen⟩

/-- C9 witness: the amended statement instantiated at concrete inconsistent
bounds and at a concrete one-file run under `cfgBadSize`. -/
theorem config_not_validated_spec_witness :
    genome_size_quality (some 5000) (some 1000) 3000 = "No" ∧
    gc_content_range (some 60) (some 40) 50 = "Warning" ∧
    assess_eligibility 1 4 50 (some 5) (some 5000) (some 1000) (some 40) (some 60) =
      "Not Eligible" ∧
    (∃ rows, main cfgBadSize [[acgt]] = Except.ok (rows, 1) ∧ rows.length = 1) :=
  ⟨config_not_validated_spec.1 5000 1000 3000 (by norm_num),
   config_not_validated_spec.2.1 60 40 50 (by norm_num),
   config_not_validated_spec.2.2.1 1 4 50 5 5000 1000 40 60 (by norm_num),
   by
     have h := config_not_validated_spec.2.2.2 cfgBadSize [[acgt]]
       (by
         intro f hf
         rw [List.mem_singleton.mp hf, row_acgt_bad]
         rfl)
     simpa using h⟩

/-- C10: GC counting is case-sensitive — only the uppercase characters `'G'`
and `'C'` are counted, so any non-empty all-lowercase g/c sequence gets GC%
0.00; in particular `"ggcc"` does. -/
theorem gc_case_sensitive :
    (∀ s : List Char, s ≠ [] → (∀ c ∈ s, c = 'g' ∨ c = 'c') →
      calculate_gc_content s = some 0) ∧
    calculate_gc_content ['g', 'g', 'c', 'c'] = some 0 := by
  have all_lower : ∀ s : List Char, s ≠ [] → (∀ c ∈ s, c = 'g' ∨ c = 'c') →
      calculate_gc_content s = some 0 := by
    intro s hne hlc
    have hG : s.count 'G' = 0 := by
      rw [List.count_eq_zero]
      intro hmem
      rcases hlc _ hmem with h | h <;> exact absurd h (by decide)
    have hC : s.count 'C' = 0 := by
      rw [List.count_eq_zero]
      intro hmem
      rcases hlc _ hmem with h | h <;> exact absurd h (by decide)
    rw [calculate_gc_content]
    rw [hG, hC]
    have hlen : s.length ≠ 0 := fun h => hne (List.length_eq_zero.mp h)
    rw [if_neg hlen]
    norm_num [pyRound2, round_eq]
  exact ⟨all_lower, all_lower _ (by decide) (by decide)⟩

/-- C10 witness: instantiated at the lowercase sequence `"gc"`. -/
theorem gc_case_sensitive_witness : calculate_gc_content ['g', 'c'] = some 0 :=
  gc_case_sensitive.1 ['g', 'c'] (by decide) (by decide)

end Aqa
